import Mathlib

/-!
Shallow embedding of the ToastNotifications plugin (src/index.tsx, current
variant) and verification of the frozen claims about it.

Strings are modelled as Lean `String` (lists of characters); JS
`substring`/`slice`/`length` become `List.take`/`List.drop`/`List.length`
on `String.data`.  Host stores (user store, channel store, relationship
store, mute store, guild-settings store, streaming state) are modelled as
an explicit read-only environment `Env`; the plugin settings object and
the process-wide mutable lists (`ignoredUsers`, `notifyFor`) plus the
streaming flags become explicit `PluginSettings` / `ClientState` records.
-/

namespace Toast

/-- Embeds `limitMessageLength` (src/index.tsx:169-173):
`if (hasAttachments && body?.length > 30) return body.substring(0, 27) + "...";
 if (body?.length > 165) return body.substring(0, 162) + "...";
 return body;` -/
def limitMessageLength (body : String) (hasAttachments : Bool) : String :=
  if hasAttachments = true ∧ body.length > 30 then ⟨body.data.take 27⟩ ++ "..."
  else if body.length > 165 then ⟨body.data.take 162⟩ ++ "..."
  else body

theorem string_length_data (s : String) : s.length = s.data.length := rfl

theorem length_mk_append_dots (l : List Char) :
    (String.mk l ++ "...").length = l.length + 3 := by
  have h : (String.mk l ++ "...") = String.mk (l ++ ['.', '.', '.']) := rfl
  rw [h, string_length_data]
  simp

theorem limit_att_long (body : String) (h : body.length > 30) :
    limitMessageLength body true = ⟨body.data.take 27⟩ ++ "..." := by
  unfold limitMessageLength
  rw [if_pos ⟨rfl, h⟩]

theorem limit_att_short (body : String) (h : body.length ≤ 30) :
    limitMessageLength body true = body := by
  unfold limitMessageLength
  rw [if_neg (by rintro ⟨-, h30⟩; omega), if_neg (by omega)]

theorem limit_noatt_long (body : String) (h : body.length > 165) :
    limitMessageLength body false = ⟨body.data.take 162⟩ ++ "..." := by
  unfold limitMessageLength
  rw [if_neg (by rintro ⟨hc, -⟩; exact Bool.false_ne_true hc), if_pos h]

theorem limit_noatt_short (body : String) (h : body.length ≤ 165) :
    limitMessageLength body false = body := by
  unfold limitMessageLength
  rw [if_neg (by rintro ⟨hc, -⟩; exact Bool.false_ne_true hc), if_neg (by omega)]

/-- C4: with attachments the body is cut to 27 characters plus an ellipsis
(total length 30 ≤ 30) exactly when it exceeds 30 characters, otherwise
returned unchanged; without attachments the same with thresholds 165/162. -/
theorem c4_truncation (body : String) :
    ((body.length > 30 →
        (limitMessageLength body true).length ≤ 30 ∧
        "...".data <:+ (limitMessageLength body true).data ∧
        limitMessageLength body true = ⟨body.data.take 27⟩ ++ "...") ∧
      (body.length ≤ 30 → limitMessageLength body true = body)) ∧
    ((body.length > 165 →
        (limitMessageLength body false).length ≤ 165 ∧
        "...".data <:+ (limitMessageLength body false).data ∧
        limitMessageLength body false = ⟨body.data.take 162⟩ ++ "...") ∧
      (body.length ≤ 165 → limitMessageLength body false = body)) := by
  have hdl := string_length_data body
  refine ⟨⟨fun h => ?_, limit_att_short body⟩,
          ⟨fun h => ?_, limit_noatt_short body⟩⟩
  · rw [limit_att_long body h]
    refine ⟨?_, ⟨body.data.take 27, rfl⟩, rfl⟩
    rw [length_mk_append_dots, List.length_take]
    omega
  · rw [limit_noatt_long body h]
    refine ⟨?_, ⟨body.data.take 162, rfl⟩, rfl⟩
    rw [length_mk_append_dots, List.length_take]
    omega

/-- JS `\w` character class: ASCII letters, digits and underscore. -/
def isWordChar (c : Char) : Bool := c.isAlphanum || c = '_'

/-- Matches the tail of an emote token after `<:` or `<a:` against
`\w+:\d+>`: a nonempty greedy run of word characters, a colon, a nonempty
greedy run of digits, and a closing angle bracket.  Returns the emote name
and the remaining input.  (Both runs are followed by characters outside
their classes in the pattern, so the greedy regex never backtracks.) -/
def matchEmoteBody (l : List Char) : Option (String × List Char) :=
  if (l.takeWhile isWordChar).isEmpty then none else
  match l.dropWhile isWordChar with
  | x :: r2 =>
    if x = ':' then
      if (r2.takeWhile Char.isDigit).isEmpty then none else
      match r2.dropWhile Char.isDigit with
      | y :: rest => if y = '>' then some (⟨l.takeWhile isWordChar⟩, rest) else none
      | [] => none
    else none
  | [] => none

/-- After `<a`, the emote regex requires a literal `:` and then the
name/id tail. -/
def matchEmoteColon : List Char → Option (String × List Char)
  | c3 :: t => if c3 = ':' then matchEmoteBody t else none
  | [] => none

/-- After `<`, the emote regex accepts an optional `a` followed by `:`
(greedy `a?`; when the next character is `a` the alternative without it
would require `:` to match `a` and fails, so the choice is forced). -/
def matchEmoteTail : List Char → Option (String × List Char)
  | c2 :: rest2 =>
    if c2 = 'a' then matchEmoteColon rest2
    else if c2 = ':' then matchEmoteBody rest2
    else none
  | [] => none

/-- One attempted match of the emote regex `<a?:\w+:\d+>`
(src/index.tsx:214) at the current position: `<`, an optional `a`, `:`,
then the name/id tail. -/
def matchEmote : List Char → Option (String × List Char)
  | c1 :: rest => if c1 = '<' then matchEmoteTail rest else none
  | [] => none

/-- Fuel-indexed global scan-and-replace for the emote regex: on a match the
token is replaced by `:name:` and scanning resumes after the token (the
semantics of `String.replace` with a global regex); otherwise one character
is copied and scanning resumes at the next position.  The fuel is an upper
bound on the input length, consumed one unit per step. -/
def formatEmotesF : Nat → List Char → List Char
  | 0, _ => []
  | _ + 1, [] => []
  | f + 1, c :: cs =>
    match matchEmote (c :: cs) with
    | some (nm, rest) => ':' :: (nm.data ++ ':' :: formatEmotesF f rest)
    | none => c :: formatEmotesF f cs

/-- Embeds `formatEmotes` (src/index.tsx:213-215):
`body.replace(/(<a?:\w+:\d+>)/g, match => ":" + match.split(":")[1] + ":")`;
for a matched token `<:name:id>` or `<a:name:id>`, `match.split(":")[1]`
is the name, so the replacement is `:name:`. -/
def formatEmotes (body : String) : String :=
  ⟨formatEmotesF body.data.length body.data⟩

theorem length_dropWhile_le (p : Char → Bool) (l : List Char) :
    (l.dropWhile p).length ≤ l.length := by
  induction l with
  | nil => simp
  | cons c cs ih =>
    by_cases h : p c
    · rw [List.dropWhile_cons_of_pos h]
      simp only [List.length_cons]
      omega
    · rw [List.dropWhile_cons_of_neg h]

theorem matchEmoteBody_length {l rest : List Char} {nm : String}
    (h : matchEmoteBody l = some (nm, rest)) : rest.length < l.length := by
  have h1 := length_dropWhile_le isWordChar l
  unfold matchEmoteBody at h
  split at h
  · exact absurd h (by simp)
  · split at h
    · rename_i x r2 heq
      split at h
      · split at h
        · exact absurd h (by simp)
        · have h2 := length_dropWhile_le Char.isDigit r2
          split at h
          · rename_i y r3 heq2
            split at h
            · have hr : rest = r3 :=
                (congrArg Prod.snd (Option.some.inj h)).symm
              subst hr
              rw [heq] at h1
              rw [heq2] at h2
              simp only [List.length_cons] at h1 h2
              omega
            · exact absurd h (by simp)
          · exact absurd h (by simp)
      · exact absurd h (by simp)
    · exact absurd h (by simp)

theorem matchEmoteColon_length {l rest : List Char} {nm : String}
    (h : matchEmoteColon l = some (nm, rest)) : rest.length < l.length := by
  cases l with
  | nil => exact absurd h (by simp [matchEmoteColon])
  | cons c3 t =>
    simp only [matchEmoteColon] at h
    split at h
    · have := matchEmoteBody_length h
      simp only [List.length_cons]
      omega
    · exact absurd h (by simp)

theorem matchEmoteTail_length {l rest : List Char} {nm : String}
    (h : matchEmoteTail l = some (nm, rest)) : rest.length < l.length := by
  cases l with
  | nil => exact absurd h (by simp [matchEmoteTail])
  | cons c2 r2 =>
    simp only [matchEmoteTail] at h
    split at h
    · have := matchEmoteColon_length h
      simp only [List.length_cons]
      omega
    · split at h
      · have := matchEmoteBody_length h
        simp only [List.length_cons]
        omega
      · exact absurd h (by simp)

theorem matchEmote_length {l rest : List Char} {nm : String}
    (h : matchEmote l = some (nm, rest)) : rest.length < l.length := by
  cases l with
  | nil => exact absurd h (by simp [matchEmote])
  | cons c1 r1 =>
    simp only [matchEmote] at h
    split at h
    · have := matchEmoteTail_length h
      simp only [List.length_cons]
      omega
    · exact absurd h (by simp)


theorem formatEmotesF_fuel {f₁ f₂ : Nat} {l : List Char}
    (h₁ : l.length ≤ f₁) (h₂ : l.length ≤ f₂) :
    formatEmotesF f₁ l = formatEmotesF f₂ l := by
  induction f₁ generalizing f₂ l with
  | zero =>
    have hl : l = [] := List.length_eq_zero.mp (Nat.le_zero.mp h₁)
    subst hl
    cases f₂ <;> rfl
  | succ f ih =>
    cases l with
    | nil => cases f₂ <;> rfl
    | cons c cs =>
      cases f₂ with
      | zero => simp at h₂
      | succ g =>
        simp only [List.length_cons] at h₁ h₂
        simp only [formatEmotesF]
        cases hm : matchEmote (c :: cs) with
        | none =>
          simp only
          rw [@ih g cs (by omega) (by omega)]
        | some pr =>
          obtain ⟨nm, rest⟩ := pr
          have hlen := matchEmote_length hm
          simp only [List.length_cons] at hlen
          simp only
          rw [@ih g rest (by omega) (by omega)]

/-- The emote scan with its canonical fuel (the input length). -/
def emoteScan (l : List Char) : List Char := formatEmotesF l.length l

theorem emoteScan_cons (c : Char) (cs : List Char) :
    emoteScan (c :: cs) =
      match matchEmote (c :: cs) with
      | some (nm, rest) => ':' :: (nm.data ++ ':' :: emoteScan rest)
      | none => c :: emoteScan cs := by
  unfold emoteScan
  simp only [List.length_cons, formatEmotesF]
  cases hm : matchEmote (c :: cs) with
  | none => simp only
  | some pr =>
    obtain ⟨nm, rest⟩ := pr
    have hlen := matchEmote_length hm
    simp only [List.length_cons] at hlen
    simp only
    rw [@formatEmotesF_fuel cs.length rest.length rest (by omega) (le_refl _)]

theorem formatEmotes_data (body : String) :
    formatEmotes body = ⟨emoteScan body.data⟩ := rfl

theorem matchEmote_cons_of_ne {c : Char} (t : List Char) (hc : ¬ c = '<') :
    matchEmote (c :: t) = none := by
  simp only [matchEmote]
  rw [if_neg hc]

theorem emoteScan_append_of_no_lt {a : List Char} (r : List Char)
    (ha : ∀ c ∈ a, ¬ c = '<') :
    emoteScan (a ++ r) = a ++ emoteScan r := by
  induction a with
  | nil => rfl
  | cons c a' ih =>
    rw [List.cons_append, emoteScan_cons,
      matchEmote_cons_of_ne _ (ha c (List.mem_cons_self c a'))]
    simp only
    rw [ih (fun x hx => ha x (List.mem_cons_of_mem c hx))]
    rfl

theorem takeWhile_dropWhile_append {p : Char → Bool} {w : List Char}
    (x : Char) (r : List Char)
    (hw : ∀ c ∈ w, p c = true) (hx : p x = false) :
    (w ++ x :: r).takeWhile p = w ∧ (w ++ x :: r).dropWhile p = x :: r := by
  induction w with
  | nil =>
    simp only [List.nil_append]
    exact ⟨List.takeWhile_cons_of_neg (by simp [hx]),
      List.dropWhile_cons_of_neg (by simp [hx])⟩
  | cons c w' ih =>
    have hc : p c = true := hw c (List.mem_cons_self c w')
    have hrec := ih (fun y hy => hw y (List.mem_cons_of_mem c hy))
    constructor
    · rw [List.cons_append, List.takeWhile_cons_of_pos hc, hrec.1]
    · rw [List.cons_append, List.dropWhile_cons_of_pos hc, hrec.2]

theorem matchEmoteBody_token {name id : List Char} (b : List Char)
    (hn : name ≠ []) (hnw : ∀ c ∈ name, isWordChar c = true)
    (hi : id ≠ []) (hid : ∀ c ∈ id, c.isDigit = true) :
    matchEmoteBody (name ++ ':' :: (id ++ '>' :: b)) = some (⟨name⟩, b) := by
  obtain ⟨ht1, hd1⟩ :=
    takeWhile_dropWhile_append (p := isWordChar) ':' (id ++ '>' :: b) hnw (by decide)
  obtain ⟨ht2, hd2⟩ :=
    takeWhile_dropWhile_append (p := Char.isDigit) '>' b hid (by decide)
  have hne : name.isEmpty = false := by
    cases name with
    | nil => exact absurd rfl hn
    | cons _ _ => rfl
  have hie : id.isEmpty = false := by
    cases id with
    | nil => exact absurd rfl hi
    | cons _ _ => rfl
  simp [matchEmoteBody, ht1, hd1, ht2, hd2, hne, hie]

theorem matchEmote_token_plain {name id : List Char} (b : List Char)
    (hn : name ≠ []) (hnw : ∀ c ∈ name, isWordChar c = true)
    (hi : id ≠ []) (hid : ∀ c ∈ id, c.isDigit = true) :
    matchEmote ('<' :: ':' :: (name ++ ':' :: (id ++ '>' :: b))) =
      some (⟨name⟩, b) := by
  have hb := matchEmoteBody_token b hn hnw hi hid
  simp [matchEmote, matchEmoteTail, hb]

theorem matchEmote_token_animated {name id : List Char} (b : List Char)
    (hn : name ≠ []) (hnw : ∀ c ∈ name, isWordChar c = true)
    (hi : id ≠ []) (hid : ∀ c ∈ id, c.isDigit = true) :
    matchEmote ('<' :: 'a' :: ':' :: (name ++ ':' :: (id ++ '>' :: b))) =
      some (⟨name⟩, b) := by
  have hb := matchEmoteBody_token b hn hnw hi hid
  simp [matchEmote, matchEmoteTail, matchEmoteColon, hb]

/-- C9: both the static form `<:name:id>` and the animated form
`<a:name:id>`, occurring anywhere in the body, are replaced by `:name:`,
with the text before the token (which contains no `<` and hence no token
start) copied unchanged and the rest of the body processed the same way. -/
theorem c9_emote_forms (a name id b : String)
    (ha : ∀ c ∈ a.data, ¬ c = '<')
    (hn : name.data ≠ []) (hnw : ∀ c ∈ name.data, isWordChar c = true)
    (hi : id.data ≠ []) (hid : ∀ c ∈ id.data, c.isDigit = true) :
    formatEmotes (a ++ "<:" ++ name ++ ":" ++ id ++ ">" ++ b) =
      a ++ ":" ++ name ++ ":" ++ formatEmotes b ∧
    formatEmotes (a ++ "<a:" ++ name ++ ":" ++ id ++ ">" ++ b) =
      a ++ ":" ++ name ++ ":" ++ formatEmotes b := by
  have hLplain :
      (a ++ "<:" ++ name ++ ":" ++ id ++ ">" ++ b).data =
        a.data ++ '<' :: ':' :: (name.data ++ ':' :: (id.data ++ '>' :: b.data)) := by
    show a.data ++ "<:".data ++ name.data ++ ":".data ++ id.data ++ ">".data ++ b.data = _
    simp [List.append_assoc]
  have hLanim :
      (a ++ "<a:" ++ name ++ ":" ++ id ++ ">" ++ b).data =
        a.data ++ '<' :: 'a' :: ':' :: (name.data ++ ':' :: (id.data ++ '>' :: b.data)) := by
    show a.data ++ "<a:".data ++ name.data ++ ":".data ++ id.data ++ ">".data ++ b.data = _
    simp [List.append_assoc]
  have hR :
      (a ++ ":" ++ name ++ ":" ++ formatEmotes b).data =
        a.data ++ ':' :: (name.data ++ ':' :: emoteScan b.data) := by
    show a.data ++ ":".data ++ name.data ++ ":".data ++ (formatEmotes b).data = _
    rw [formatEmotes_data b]
    simp [List.append_assoc]
  constructor
  · have hdata :
        (formatEmotes (a ++ "<:" ++ name ++ ":" ++ id ++ ">" ++ b)).data =
          (a ++ ":" ++ name ++ ":" ++ formatEmotes b).data := by
      rw [formatEmotes_data, hR]
      show emoteScan (a ++ "<:" ++ name ++ ":" ++ id ++ ">" ++ b).data = _
      rw [hLplain, emoteScan_append_of_no_lt _ ha, emoteScan_cons,
        matchEmote_token_plain b.data hn hnw hi hid]
    exact congrArg String.mk hdata
  · have hdata :
        (formatEmotes (a ++ "<a:" ++ name ++ ":" ++ id ++ ">" ++ b)).data =
          (a ++ ":" ++ name ++ ":" ++ formatEmotes b).data := by
      rw [formatEmotes_data, hR]
      show emoteScan (a ++ "<a:" ++ name ++ ":" ++ id ++ ">" ++ b).data = _
      rw [hLanim, emoteScan_append_of_no_lt _ ha, emoteScan_cons,
        matchEmote_token_animated b.data hn hnw hi hid]
    exact congrArg String.mk hdata

/-- Witness for C9 at concrete inputs: `<:foo:123>` and `<a:foo:123>`
inside surrounding text both normalize to `:foo:`. -/
theorem c9_emote_forms_witness :
    formatEmotes ("x " ++ "<:" ++ "foo" ++ ":" ++ "123" ++ ">" ++ " y") =
      "x " ++ ":" ++ "foo" ++ ":" ++ formatEmotes " y" ∧
    formatEmotes ("x " ++ "<a:" ++ "foo" ++ ":" ++ "123" ++ ">" ++ " y") =
      "x " ++ ":" ++ "foo" ++ ":" ++ formatEmotes " y" :=
  c9_emote_forms "x " "foo" "123" " y" (by decide) (by decide) (by decide)
    (by decide) (by decide)

/-- The three capture groups of `USER_MENTION_REGEX`
(src/index.tsx:35): user, channel and role mentions. -/
inductive MKind
  | user
  | channel
  | role
deriving DecidableEq

/-- One piece of a body under the global mention-regex scan: either a
single unmatched character or a matched mention token with its id. -/
inductive MPiece
  | chr (c : Char)
  | tok (k : MKind) (id : String)
deriving DecidableEq

/-- Matches `\d{17,20}>`: the greedy digit run must have 17 to 20 digits
and be followed by `>`.  (A longer run cannot match: every shorter prefix
the engine backtracks to is followed by a digit, never by `>`.) -/
def matchMentionIdClose (l : List Char) : Option (String × List Char) :=
  if 17 ≤ (l.takeWhile Char.isDigit).length ∧ (l.takeWhile Char.isDigit).length ≤ 20 then
    match l.dropWhile Char.isDigit with
    | c :: r => if c = '>' then some (⟨l.takeWhile Char.isDigit⟩, r) else none
    | [] => none
  else none

/-- After `<@`: `!` starts a nickname user mention, `&` a role mention,
anything else must be the digits of a plain user mention. -/
def matchMentionAt : List Char → Option (MKind × String × List Char)
  | c3 :: rest3 =>
    if c3 = '!' then (matchMentionIdClose rest3).map (fun p => (MKind.user, p.1, p.2))
    else if c3 = '&' then (matchMentionIdClose rest3).map (fun p => (MKind.role, p.1, p.2))
    else (matchMentionIdClose (c3 :: rest3)).map (fun p => (MKind.user, p.1, p.2))
  | [] => none

/-- After `<`: `@` leads to a user or role mention, `#` to a channel
mention. -/
def matchMentionSigil : List Char → Option (MKind × String × List Char)
  | c2 :: rest2 =>
    if c2 = '@' then matchMentionAt rest2
    else if c2 = '#' then (matchMentionIdClose rest2).map (fun p => (MKind.channel, p.1, p.2))
    else none
  | [] => none

/-- One attempted match of `USER_MENTION_REGEX`
(`<@!?(\d{17,20})>|<#(\d{17,20})>|<@&(\d{17,20})>`, src/index.tsx:35)
at the current position. -/
def matchMention : List Char → Option (MKind × String × List Char)
  | c1 :: rest => if c1 = '<' then matchMentionSigil rest else none
  | [] => none

/-- Fuel-indexed global scan for the mention regex, producing the leftmost
non-overlapping matches interleaved with the unmatched characters, in
order.  The fuel is an upper bound on the input length (each step consumes
at least one character, see `matchMention_length`). -/
def mentionPiecesF : Nat → List Char → List MPiece
  | 0, _ => []
  | _ + 1, [] => []
  | f + 1, c :: cs =>
    match matchMention (c :: cs) with
    | some (k, id, rest) => .tok k id :: mentionPiecesF f rest
    | none => .chr c :: mentionPiecesF f cs

/-- The mention scan of a body with its canonical fuel. -/
def mentionPieces (body : String) : List MPiece :=
  mentionPiecesF body.data.length body.data

theorem matchMentionIdClose_length {l rest : List Char} {id : String}
    (h : matchMentionIdClose l = some (id, rest)) : rest.length < l.length := by
  have h1 := length_dropWhile_le Char.isDigit l
  unfold matchMentionIdClose at h
  split at h
  · split at h
    · rename_i c r heq
      split at h
      · have hr : rest = r := (congrArg Prod.snd (Option.some.inj h)).symm
        subst hr
        rw [heq] at h1
        simp only [List.length_cons] at h1
        have h2 : (l.takeWhile Char.isDigit).length + (rest.length + 1) = l.length := by
          have := List.takeWhile_append_dropWhile (p := Char.isDigit) (l := l)
          have hlen := congrArg List.length this
          rw [List.length_append, heq] at hlen
          simpa using hlen
        omega
      · exact absurd h (by simp)
    · exact absurd h (by simp)
  · exact absurd h (by simp)

theorem matchMentionAt_length {l rest : List Char} {k : MKind} {id : String}
    (h : matchMentionAt l = some (k, id, rest)) : rest.length < l.length := by
  cases l with
  | nil => exact absurd h (by simp [matchMentionAt])
  | cons c3 r3 =>
    simp only [matchMentionAt] at h
    split at h
    · cases hi : matchMentionIdClose r3 with
      | none => rw [hi] at h; exact absurd h (by simp)
      | some p =>
        rw [hi] at h
        obtain ⟨pid, pr⟩ := p
        simp only [Option.map_some'] at h
        have hr : rest = pr := congrArg (fun q => q.2.2) (Option.some.inj h) |>.symm
        subst hr
        have := matchMentionIdClose_length hi
        simp only [List.length_cons]
        omega
    · split at h
      · cases hi : matchMentionIdClose r3 with
        | none => rw [hi] at h; exact absurd h (by simp)
        | some p =>
          rw [hi] at h
          obtain ⟨pid, pr⟩ := p
          simp only [Option.map_some'] at h
          have hr : rest = pr := congrArg (fun q => q.2.2) (Option.some.inj h) |>.symm
          subst hr
          have := matchMentionIdClose_length hi
          simp only [List.length_cons]
          omega
      · cases hi : matchMentionIdClose (c3 :: r3) with
        | none => rw [hi] at h; exact absurd h (by simp)
        | some p =>
          rw [hi] at h
          obtain ⟨pid, pr⟩ := p
          simp only [Option.map_some'] at h
          have hr : rest = pr := congrArg (fun q => q.2.2) (Option.some.inj h) |>.symm
          subst hr
          exact matchMentionIdClose_length hi

theorem matchMentionSigil_length {l rest : List Char} {k : MKind} {id : String}
    (h : matchMentionSigil l = some (k, id, rest)) : rest.length < l.length := by
  cases l with
  | nil => exact absurd h (by simp [matchMentionSigil])
  | cons c2 r2 =>
    simp only [matchMentionSigil] at h
    split at h
    · have := matchMentionAt_length h
      simp only [List.length_cons]
      omega
    · split at h
      · cases hi : matchMentionIdClose r2 with
        | none => rw [hi] at h; exact absurd h (by simp)
        | some p =>
          rw [hi] at h
          obtain ⟨pid, pr⟩ := p
          simp only [Option.map_some'] at h
          have hr : rest = pr := congrArg (fun q => q.2.2) (Option.some.inj h) |>.symm
          subst hr
          have := matchMentionIdClose_length hi
          simp only [List.length_cons]
          omega
      · exact absurd h (by simp)

theorem matchMention_length {l rest : List Char} {k : MKind} {id : String}
    (h : matchMention l = some (k, id, rest)) : rest.length < l.length := by
  cases l with
  | nil => exact absurd h (by simp [matchMention])
  | cons c1 r1 =>
    simp only [matchMention] at h
    split at h
    · have := matchMentionSigil_length h
      simp only [List.length_cons]
      omega
    · exact absurd h (by simp)

/-- A Discord user as read from the user store: id, username and avatar
hash (the fields the plugin uses). -/
structure UserRec where
  id : String
  username : String
  avatar : String
deriving DecidableEq

/-- A channel as read from the channel store.  `guild_id` and `name` are
`Option` because they may be absent (JS `undefined`); an empty-string JS
`guild_id` (falsy) is modelled as `none`.  `isDM` / `isGroupDM` model the
channel methods of the same names; `rawRecipients` holds the recipients'
usernames (the only field of the recipient objects the plugin reads). -/
structure Channel where
  id : String
  guild_id : Option String
  name : Option String
  rawRecipients : List String
  isDM : Bool
  isGroupDM : Bool
deriving DecidableEq

/-- `NotificationLevel` (src/index.tsx:367-371). -/
inductive NotificationLevel
  | allMessages
  | onlyMentions
  | noMessages
deriving DecidableEq

/-- A per-channel entry of `userGuildSettings.channel_overrides`; the
`message_notifications` field is `none` when the key is absent from the
override object. -/
structure ChannelOverride where
  message_notifications : Option NotificationLevel
deriving DecidableEq

/-- The per-guild record of the `UserGuildSettingsStore`:
`channel_overrides` maps channel ids to override objects, and
`message_notifications` is the guild default (`none` when it is not a
number). -/
structure UserGuildSettings where
  channel_overrides : String → Option ChannelOverride
  message_notifications : Option NotificationLevel

/-- Read-only snapshot of the host stores used by the plugin:
`currentUser`/`selectedChannelId` (UserStore / SelectedChannelStore),
`getChannel`/`hasChannel` (ChannelStore), `getUser` (UserStore),
`nickname` (RelationshipStore.getNickname), `displayName`
(UserUtils.getName), `getRoleName` (GuildStore guild/role lookup,
`none` when unresolved), `isFriend` (RelationshipStore),
`isChannelMuted`/`isGuildOrCategoryOrChannelMuted` (MuteStore), and
`userGuildSettings` (UserGuildSettingsStore, keyed by guild id). -/
structure Env where
  currentUser : UserRec
  selectedChannelId : String
  getChannel : String → Channel
  getUser : String → UserRec
  nickname : String → Option String
  displayName : UserRec → String
  getRoleName : String → String → Option String
  isFriend : String → Bool
  isChannelMuted : String → Bool
  isGuildOrCategoryOrChannelMuted : Option String → String → Bool
  userGuildSettings : Option String → Option UserGuildSettings
  hasChannel : String → Bool

/-- A node of the rich notification body: a plain-text segment or a
styled mention span (its React key and its resolved display name; the
name is `none` when `addMention` assigns none, e.g. a role mention with
no guild id). -/
inductive RNode
  | text (s : String)
  | mention (key : String) (name : Option String)
deriving DecidableEq

def mkindStr : MKind → String
  | .user => "user"
  | .channel => "channel"
  | .role => "role"

/-- JS `x || fallback` for strings: the fallback replaces an empty (falsy)
string. -/
def orElseStr (s fallback : String) : String :=
  if s = "" then fallback else s

/-- Embeds `addMention` (src/index.tsx:183-196): resolves a user, channel
or role id to a display name (falling back to an `unknown-<kind>`
placeholder) and wraps it in a styled span keyed by `<type>-<id>`.  A role
mention with no guild id leaves the name unset, as in the source. -/
def addMentionName (env : Env) (id : String) (k : MKind) (guildId : Option String) :
    Option String :=
  match k with
  | .user => some ("@" ++ orElseStr (env.getUser id).username "unknown-user")
  | .channel => some ("#" ++ orElseStr (((env.getChannel id).name).getD "") "unknown-channel")
  | .role =>
    match guildId with
    | some g => some ("@" ++ orElseStr ((env.getRoleName g id).getD "") "unknown-role")
    | none => none

def addMention (env : Env) (id : String) (k : MKind) (guildId : Option String) : RNode :=
  RNode.mention (mkindStr k ++ "-" ++ id) (addMentionName env id k guildId)

/-- The element-pushing loop of `parseMentions` (src/index.tsx:198-211)
over the mention-regex scan: before each match the text accumulated since
the previous match end (`body.slice(lastIndex, offset)`, possibly empty)
is pushed, then the mention element; after the scan the trailing text is
pushed only when nonempty (`lastIndex < body.length`). -/
def parseMentionsP (env : Env) (guildId : Option String) :
    List MPiece → List Char → List RNode
  | [], acc => if acc.isEmpty then [] else [RNode.text ⟨acc⟩]
  | .chr c :: ps, acc => parseMentionsP env guildId ps (acc ++ [c])
  | .tok k id :: ps, acc =>
    RNode.text ⟨acc⟩ :: addMention env id k guildId :: parseMentionsP env guildId ps []

/-- Embeds `parseMentions` (src/index.tsx:198-211). -/
def parseMentions (env : Env) (body : String) (channel : Channel) : List RNode :=
  parseMentionsP env channel.guild_id (mentionPieces body) []

/-- The body with every mention-token match removed: the unmatched
characters of the scan, in order. -/
def removeMentionTokens (body : String) : String :=
  ⟨(mentionPieces body).foldr
    (fun p acc => match p with | .chr c => c :: acc | .tok _ _ => acc) []⟩

/-- The concatenation, in order, of the plain-text segments of a rich-body
sequence, ignoring mention elements. -/
def joinTextSegments (ns : List RNode) : String :=
  ⟨ns.foldr (fun n acc => match n with | .text s => s.data ++ acc | .mention _ _ => acc) []⟩

theorem joinTextSegments_parseP (env : Env) (guildId : Option String)
    (ps : List MPiece) (acc : List Char) :
    (joinTextSegments (parseMentionsP env guildId ps acc)).data =
      acc ++ ps.foldr
        (fun p r => match p with | .chr c => c :: r | .tok _ _ => r) [] := by
  induction ps generalizing acc with
  | nil =>
    by_cases h : acc.isEmpty
    · have : acc = [] := List.isEmpty_iff.mp h
      subst this
      simp [parseMentionsP, joinTextSegments]
    · have hne : acc.isEmpty = false := Bool.not_eq_true _ ▸ by
        simpa using h
      simp [parseMentionsP, hne, joinTextSegments]
  | cons p ps ih =>
    cases p with
    | chr c =>
      simp only [parseMentionsP, List.foldr_cons]
      rw [ih]
      simp
    | tok k id =>
      simp only [parseMentionsP, List.foldr_cons]
      simp only [joinTextSegments, List.foldr_cons]
      have := ih []
      simp only [joinTextSegments, List.nil_append] at this
      simp [addMention, this]

/-- C5: concatenating the plain-text segments of the rich sequence
produced by `parseMentions`, in order, yields the original body with every
mention token removed — including any text after the last mention token. -/
theorem c5_mention_substitution (env : Env) (body : String) (channel : Channel) :
    joinTextSegments (parseMentions env body channel) = removeMentionTokens body := by
  have h := joinTextSegments_parseP env channel.guild_id (mentionPieces body) []
  simp only [List.nil_append] at h
  exact congrArg String.mk h

/-- Modelled from the spec: the `MessageTypes` enum imported from
`./types` is not part of the repository sources; only the distinct tags
dispatched on by `getNotificationBody` are needed, plus a default tag for
every other message type. -/
inductive MessageType
  | CALL
  | CHANNEL_RECIPIENT_ADD
  | CHANNEL_RECIPIENT_REMOVE
  | CHANNEL_NAME_CHANGE
  | CHANNEL_ICON_CHANGE
  | CHANNEL_PINNED_MESSAGE
  | DEFAULT
deriving DecidableEq

/-- A message attachment: the fields the plugin reads. -/
structure Attachment where
  filename : String
  content_type : Option String
  url : String
deriving DecidableEq

/-- A message event.  `mentions` holds the raw mention-token strings
(the plugin reads `mentions[0]?.replace(/[<@!>]/g, "")` and
`mentions.length`); `mentionRoles` and `embeds` are only length-checked,
so only their counts are kept; `stickerItems` records whether the field is
present (any array, even empty, is truthy). -/
structure Message where
  author : UserRec
  channel_id : String
  content : String
  type : MessageType
  mentions : List String
  mentionRoles : Nat
  embeds : Nat
  stickerItems : Bool
  attachments : List Attachment
deriving DecidableEq

/-- Embeds `getName` (src/index.tsx:175-177):
`RelationshipStore.getNickname(user.id) ?? UserUtils.getName(user)`. -/
def getName (env : Env) (user : UserRec) : String :=
  (env.nickname user.id).getD (env.displayName user)

/-- Embeds `getAvatarURL` (src/index.tsx:179-181). -/
def getAvatarURL (user : UserRec) : String :=
  "https://cdn.discordapp.com/avatars/" ++ user.id ++ "/" ++ user.avatar ++ ".png?size=128"

/-- `channel.rawRecipients?.slice(0, 3).map(e => e.username).join(", ")`
(src/index.tsx:219). -/
def joinRecipients (channel : Channel) : String :=
  String.intercalate ", " (channel.rawRecipients.take 3)

/-- Embeds `getNotificationTitle` (src/index.tsx:217-225).  For a group
DM the parenthesized label is the trimmed channel name when that is
nonempty (JS `channel.name?.trim() || fallback`), else the first three
recipients' usernames joined by `", "`, truncated to 20 characters plus an
ellipsis when longer than 20. -/
def getNotificationTitle (env : Env) (message : Message) (channel : Channel) : String :=
  if channel.isGroupDM = true then
    let channelName :=
      match channel.name with
      | some n => if n.trim = "" then joinRecipients channel else n.trim
      | none => joinRecipients channel
    let channelName :=
      if channelName.length > 20 then ⟨channelName.data.take 20⟩ ++ "..." else channelName
    message.author.username ++ " (" ++ channelName ++ ")"
  else if channel.guild_id.isSome = true then
    getName env message.author ++ " (#" ++ channel.name.getD "" ++ ")"
  else getName env message.author

/-- JS `mentions[0]?.replace(/[<@!>]/g, "")`: strips the sigil characters
from a raw mention token, leaving the id. -/
def stripMentionChars (s : String) : String :=
  ⟨s.data.filter (fun c => ¬ (c = '<' ∨ c = '@' ∨ c = '!' ∨ c = '>'))⟩

/-- `message.attachments.filter(e => e?.content_type?.startsWith("image"))`
(src/index.tsx:255 and 289). -/
def imageAttachments (message : Message) : List Attachment :=
  message.attachments.filter (fun a =>
    match a.content_type with
    | some t => t.startsWith "image"
    | none => false)

/-- Embeds `getNotificationBody` (src/index.tsx:227-261): system message
types override the content; otherwise embed/sticker/attachment fallbacks
apply when the content is empty, and non-image attachments append a
filename note. -/
def getNotificationBody (env : Env) (message : Message) (channel : Channel) : String :=
  match message.type with
  | .CALL => "Started a call with you!"
  | .CHANNEL_RECIPIENT_ADD =>
    let actor := env.getUser message.author.id
    let userId := stripMentionChars ((message.mentions.head?).getD "")
    let targetUser := env.getUser userId
    getName env targetUser ++ " was added to the group by " ++ getName env actor ++ "."
  | .CHANNEL_RECIPIENT_REMOVE =>
    let actor := env.getUser message.author.id
    let userId := stripMentionChars ((message.mentions.head?).getD "")
    let targetUser := env.getUser userId
    if actor.id ≠ targetUser.id then
      getName env targetUser ++ " was removed from the group by " ++ getName env actor ++ "."
    else "Left the group."
  | .CHANNEL_NAME_CHANGE => "Changed the channel name to '" ++ message.content ++ "'."
  | .CHANNEL_ICON_CHANGE => "Changed the channel icon."
  | .CHANNEL_PINNED_MESSAGE => "Pinned a message."
  | .DEFAULT =>
    if message.embeds ≠ 0 then orElseStr message.content "Sent an embed."
    else if message.stickerItems = true then orElseStr message.content "Sent a sticker."
    else if message.attachments.length ≠ 0 then
      if (imageAttachments message).length ≠ 0 then message.content
      else message.content ++ " [Attachment: " ++
        ((message.attachments.head?.map (fun a => a.filename)).getD "") ++ "]"
    else message.content

/-- The click behaviour stored on a notification: selecting a private
channel (`SelectedChannelActionCreators.selectPrivateChannel`) or the
`switchChannels` route navigation. -/
inductive ClickIntent
  | selectPrivateChannel (channelId : String)
  | switchChannels (guildId : Option String) (channelId : String)
deriving DecidableEq

/-- An actual navigation performed when a notification is clicked. -/
inductive NavAction
  | selectPrivateChannel (channelId : String)
  | transitionTo (route : String)
deriving DecidableEq

/-- Embeds `switchChannels` (src/index.tsx:458-461) and the private-channel
selection as the interpretation of a stored click intent:
`switchChannels` first checks `ChannelStore.hasChannel(channelId)` and
navigates to `/channels/<guildId ?? "@me">/<channelId>/` only when the
channel exists. -/
def runClick (env : Env) : ClickIntent → Option NavAction
  | .selectPrivateChannel c => some (.selectPrivateChannel c)
  | .switchChannels g c =>
    if env.hasChannel c = true then
      some (.transitionTo ("/channels/" ++ g.getD "@me" ++ "/" ++ c ++ "/"))
    else none

/-- The record handed to `showNotification`
(`NotificationData`, per src/index.tsx:276-293 and 436-441); fields the
source leaves unset keep their defaults. -/
structure NotificationData where
  title : String
  icon : String
  body : String
  attachments : Nat
  richBody : Option (List RNode) := none
  image : Option String := none
  permanent : Bool := false
  onClick : Option ClickIntent := none
deriving DecidableEq

/-- Embeds `buildNotificationData` (src/index.tsx:263-294): computes the
body, normalizes emotes, derives the rich mention elements when the
message carries user or role mentions, truncates the plain body, and
attaches the first image attachment when present. -/
def buildNotificationData (env : Env) (message : Message) (channel : Channel)
    (onClick : ClickIntent) : NotificationData :=
  let body := getNotificationBody env message channel
  let body := formatEmotes body
  let richBodyElements : Option (List RNode) :=
    if message.mentions.length ≠ 0 ∨ message.mentionRoles ≠ 0 then
      some (parseMentions env body channel)
    else none
  let notification : NotificationData :=
    { title := getNotificationTitle env message channel
      icon := getAvatarURL message.author
      body := limitMessageLength body (decide (message.attachments.length ≠ 0))
      attachments := message.attachments.length
      richBody :=
        match richBodyElements with
        | some es => if es.length ≠ 0 then some es else none
        | none => none
      permanent := false
      onClick := some onClick }
  if message.attachments.length ≠ 0 then
    match imageAttachments message with
    | a :: _ => { notification with image := some a.url }
    | [] => notification
  else notification

/-- `StreamingTreatment` (src/index.tsx:37-41). -/
inductive StreamingTreatment
  | normal
  | noContent
  | ignore
deriving DecidableEq

/-- The plugin settings read by the handlers (src/index.tsx:57-163). -/
structure PluginSettings where
  determineServerNotifications : Bool
  disableInStreamerMode : Bool
  renderImages : Bool
  directMessages : Bool
  groupMessages : Bool
  friendServerNotifications : Bool
  friendActivity : Bool
  streamingTreatment : StreamingTreatment
  disableMessageBody : Bool
deriving DecidableEq

/-- Embeds `stringToList` (src/index.tsx:165-167): strip all whitespace,
then split on commas (empty configuration gives the empty list). -/
def stringToList (str : String) : List String :=
  if str ≠ "" then
    ((⟨str.data.filter (fun c => ¬ c.isWhitespace)⟩ : String).splitOn ",")
  else []

/-- The process-wide state the handlers read besides the settings: the
`ignoredUsers` / `notifyFor` lists (built by `stringToList` on startup and
on configuration change), the active-screenshare flag
(`ApplicationStreamingStore`), and the streamer-mode flag
(`StreamerModeStore.enabled`). -/
structure ClientState where
  ignoredUsers : List String
  notifyFor : List String
  isStreaming : Bool
  streamerModeEnabled : Bool
deriving DecidableEq

/-- The body-redaction step duplicated verbatim in `MESSAGE_CREATE`
(src/index.tsx:342-348) and `handleGuildMessage` (src/index.tsx:421-427):
while a screenshare is active with the no-content treatment, or when
`disableMessageBody` is set, the body becomes a fixed string and the rich
body is dropped. -/
def redact (s : PluginSettings) (st : ClientState) (n : NotificationData) :
    NotificationData :=
  if (st.isStreaming = true ∧ s.streamingTreatment = .noContent) ∨
      s.disableMessageBody = true then
    { n with body := "Message content has been redacted.", richBody := none }
  else n

/-- Embeds `findNotificationLevel` (src/index.tsx:373-390): `NO_MESSAGES`
when auto-detection is off or the guild/category/channel is muted; else
the per-channel override's `message_notifications` when the override
object has that key, else the numeric per-guild default, else
`NO_MESSAGES`. -/
def findNotificationLevel (env : Env) (s : PluginSettings) (channel : Channel) :
    NotificationLevel :=
  if s.determineServerNotifications = false ∨
      env.isGuildOrCategoryOrChannelMuted channel.guild_id channel.id = true then
    .noMessages
  else
    match env.userGuildSettings channel.guild_id with
    | some ugs =>
      match ugs.channel_overrides channel.id with
      | some ov =>
        match ov.message_notifications with
        | some lvl => lvl
        | none =>
          match ugs.message_notifications with
          | some g => g
          | none => .noMessages
      | none =>
        match ugs.message_notifications with
        | some g => g
        | none => .noMessages
    | none => .noMessages

/-- JS `a.includes(b)`: substring containment. -/
def includesStr (s pat : String) : Bool := decide (pat.data <:+: s.data)

/-- Embeds `handleGuildMessage` (src/index.tsx:392-430): unless the
channel is in `notifyFor` or the author is a friend with
friend-server-notifications enabled, the message is dropped when the
notification level is `NO_MESSAGES`, or when it is not `ALL_MESSAGES` and
the content does not contain `<@currentUserId>`; otherwise the
notification is built (with a `switchChannels` click intent) and the
redaction step applied. -/
def handleGuildMessage (env : Env) (s : PluginSettings) (st : ClientState)
    (message : Message) : Option NotificationData :=
  let channel := env.getChannel message.channel_id
  let notificationLevel := findNotificationLevel env s channel
  let all := st.notifyFor.contains message.channel_id = true
  let friend := s.friendServerNotifications = true ∧ env.isFriend message.author.id = true
  if (¬ all ∧ ¬ friend) ∧
      (notificationLevel = .noMessages ∨
        (notificationLevel ≠ .allMessages ∧
          includesStr message.content ("<@" ++ env.currentUser.id ++ ">") = false)) then
    none
  else
    some (redact s st (buildNotificationData env message channel
      (.switchChannels channel.guild_id channel.id)))

/-- Embeds the `MESSAGE_CREATE` flux handler (src/index.tsx:306-351):
global suppression (streamer mode, ignore-while-streaming, own message,
focused channel, ignored author), then the guild path, then the DM/group
checks and mute check, then the notification build (with a
private-channel click intent) and the redaction step. -/
def messageCreate (env : Env) (s : PluginSettings) (st : ClientState)
    (message : Message) : Option NotificationData :=
  let channel := env.getChannel message.channel_id
  if (s.disableInStreamerMode = true ∧ st.streamerModeEnabled = true) ∨
      (st.isStreaming = true ∧ s.streamingTreatment = .ignore) ∨
      message.author.id = env.currentUser.id ∨
      channel.id = env.selectedChannelId ∨
      st.ignoredUsers.contains message.author.id = true then
    none
  else if channel.guild_id.isSome = true then
    handleGuildMessage env s st message
  else if (s.directMessages = false ∧ channel.isDM = true) ∨
      (s.groupMessages = false ∧ channel.isGroupDM = true) ∨
      env.isChannelMuted channel.id = true then
    none
  else
    some (redact s st (buildNotificationData env message channel
      (.selectPrivateChannel message.channel_id)))

/-- Modelled from the spec: the `RelationshipType` enum imported from
`plugins/relationshipNotifier/types` is not part of the repository
sources; the spec distinguishes the friend and incoming-request types from
all other relationship types. -/
inductive RelationshipType
  | noRelation
  | friend
  | blocked
  | incomingRequest
  | outgoingRequest
  | implicitRelation
deriving DecidableEq

/-- Embeds `relationshipAdd` (src/index.tsx:432-456): nothing when
friend-activity notifications are disabled; the user is re-resolved from
the user store; a friend relationship yields the "is now your friend"
notification (clicking opens the DM channel keyed by the user's id), an
incoming request yields the "sent you a friend request" notification, and
every other type yields nothing. -/
def relationshipAdd (env : Env) (s : PluginSettings) (user : UserRec)
    (t : RelationshipType) : Option NotificationData :=
  if s.friendActivity = false then none else
  let user := env.getUser user.id
  match t with
  | .friend =>
    some { title := user.username ++ " is now your friend"
           icon := getAvatarURL user
           body := "You can now message them directly."
           attachments := 0
           onClick := some (.switchChannels none user.id) }
  | .incomingRequest =>
    some { title := user.username ++ " sent you a friend request"
           icon := getAvatarURL user
           body := "You can accept or decline it in the Friends tab."
           attachments := 0
           onClick := some (.switchChannels none "") }
  | _ => none

/-- Embeds the `RELATIONSHIP_ADD` flux handler (src/index.tsx:353-356):
ignored users are dropped before `relationshipAdd` runs. -/
def relationshipAddHandler (env : Env) (s : PluginSettings) (st : ClientState)
    (user : UserRec) (t : RelationshipType) : Option NotificationData :=
  if st.ignoredUsers.contains user.id = true then none
  else relationshipAdd env s user t

/-- The effective notification level as the claim states it: the
per-channel override if present, else the per-guild default if present,
else no-messages. -/
def specEffectiveLevel (env : Env) (channel : Channel) : NotificationLevel :=
  match env.userGuildSettings channel.guild_id with
  | some ugs =>
    match ugs.channel_overrides channel.id with
    | some ov =>
      match ov.message_notifications with
      | some lvl => lvl
      | none => (ugs.message_notifications).getD .noMessages
    | none => (ugs.message_notifications).getD .noMessages
  | none => .noMessages

theorem findLevel_all_spec (env : Env) (s : PluginSettings) (channel : Channel)
    (h : findNotificationLevel env s channel = .allMessages) :
    specEffectiveLevel env channel = .allMessages := by
  unfold findNotificationLevel at h
  unfold specEffectiveLevel
  split at h
  · exact absurd h (by simp)
  · cases hu : env.userGuildSettings channel.guild_id with
    | none => simp only [hu] at h; exact absurd h (by simp)
    | some ugs =>
      simp only [hu] at h ⊢
      cases ho : ugs.channel_overrides channel.id with
      | none =>
        simp only [ho] at h ⊢
        cases hg : ugs.message_notifications with
        | none => simp only [hg] at h; exact absurd h (by simp)
        | some g => simp only [hg] at h; simp only [hg, Option.getD_some]; exact h
      | some ov =>
        simp only [ho] at h ⊢
        cases hm : ov.message_notifications with
        | none =>
          simp only [hm] at h ⊢
          cases hg : ugs.message_notifications with
          | none => simp only [hg] at h; exact absurd h (by simp)
          | some g => simp only [hg] at h; simp only [hg, Option.getD_some]; exact h
        | some lvl => simp only [hm] at h ⊢; exact h

/-- C2: an incoming message authored by the current user never produces a
notification, regardless of the channel kind and of all settings: the
author check is one of the global suppression disjuncts evaluated before
either the guild or the DM/group path. -/
theorem c2_own_messages (env : Env) (s : PluginSettings) (st : ClientState)
    (message : Message) (h : message.author.id = env.currentUser.id) :
    messageCreate env s st message = none := by
  unfold messageCreate
  rw [if_pos (Or.inr (Or.inr (Or.inl h)))]

/-- C1: a guild message that passed the global suppression checks produces
a notification only if the channel is in the always-notify list, or the
sender is a friend with friend-server-notifications enabled, or the
effective notification level (channel override, else guild default, else
no-messages) is all-messages, or the content contains a mention token for
the current user; in particular none of these holding (e.g. effective
level no-messages and no mention) means no notification. -/
theorem c1_guild_eligibility (env : Env) (s : PluginSettings) (st : ClientState)
    (message : Message)
    (h : (handleGuildMessage env s st message).isSome = true) :
    st.notifyFor.contains message.channel_id = true ∨
    (env.isFriend message.author.id = true ∧ s.friendServerNotifications = true) ∨
    specEffectiveLevel env (env.getChannel message.channel_id) = .allMessages ∨
    includesStr message.content ("<@" ++ env.currentUser.id ++ ">") = true := by
  by_cases hall : st.notifyFor.contains message.channel_id = true
  · exact Or.inl hall
  by_cases hfr : s.friendServerNotifications = true ∧ env.isFriend message.author.id = true
  · exact Or.inr (Or.inl ⟨hfr.2, hfr.1⟩)
  unfold handleGuildMessage at h
  by_cases hA : (¬ st.notifyFor.contains message.channel_id = true ∧
        ¬ (s.friendServerNotifications = true ∧
          env.isFriend message.author.id = true)) ∧
      (findNotificationLevel env s (env.getChannel message.channel_id) = .noMessages ∨
        (findNotificationLevel env s (env.getChannel message.channel_id) ≠ .allMessages ∧
          includesStr message.content ("<@" ++ env.currentUser.id ++ ">") = false))
  · rw [if_pos hA] at h
    exact absurd h (by simp)
  · have hC : ¬ (findNotificationLevel env s (env.getChannel message.channel_id) = .noMessages ∨
        (findNotificationLevel env s (env.getChannel message.channel_id) ≠ .allMessages ∧
          includesStr message.content ("<@" ++ env.currentUser.id ++ ">") = false)) := by
      intro hc
      exact hA ⟨⟨hall, hfr⟩, hc⟩
    by_cases hlvl : findNotificationLevel env s (env.getChannel message.channel_id) = .allMessages
    · exact Or.inr (Or.inr (Or.inl (findLevel_all_spec env s _ hlvl)))
    · have hm : includesStr message.content ("<@" ++ env.currentUser.id ++ ">") ≠ false := by
        intro hmf
        exact hC (Or.inr ⟨hlvl, hmf⟩)
      exact Or.inr (Or.inr (Or.inr (by
        cases hb : includesStr message.content ("<@" ++ env.currentUser.id ++ ">") with
        | true => rfl
        | false => exact absurd hb hm)))

theorem redact_redacted (s : PluginSettings) (st : ClientState)
    (x : NotificationData)
    (h : (st.isStreaming = true ∧ s.streamingTreatment = .noContent) ∨
      s.disableMessageBody = true) :
    (redact s st x).body = "Message content has been redacted." ∧
    (redact s st x).richBody = none := by
  unfold redact
  rw [if_pos h]
  exact ⟨rfl, rfl⟩

theorem messageCreate_some_redact {env : Env} {s : PluginSettings}
    {st : ClientState} {message : Message} {n : NotificationData}
    (h : messageCreate env s st message = some n) :
    ∃ x, n = redact s st x := by
  simp only [messageCreate] at h
  split at h
  · exact absurd h (by simp)
  · split at h
    · simp only [handleGuildMessage] at h
      split at h
      · exact absurd h (by simp)
      · exact ⟨_, (Option.some.inj h).symm⟩
    · split at h
      · exact absurd h (by simp)
      · exact ⟨_, (Option.some.inj h).symm⟩

/-- C3: under redaction (an active screenshare with the no-content
treatment, or the redact-all flag), every notification the message handler
produces carries the fixed body string and no rich body; hence two
messages that differ only in their content yield notifications with equal
body and rich-body fields. -/
theorem c3_redaction_noninterference (env : Env) (s : PluginSettings)
    (st : ClientState) (m₁ m₂ : Message) (n₁ n₂ : NotificationData)
    (hred : (st.isStreaming = true ∧ s.streamingTreatment = .noContent) ∨
      s.disableMessageBody = true)
    (hm : m₂ = { m₁ with content := m₂.content })
    (h₁ : messageCreate env s st m₁ = some n₁)
    (h₂ : messageCreate env s st m₂ = some n₂) :
    n₁.body = "Message content has been redacted." ∧ n₁.richBody = none ∧
    n₁.body = n₂.body ∧ n₁.richBody = n₂.richBody := by
  obtain ⟨x₁, hx₁⟩ := messageCreate_some_redact h₁
  obtain ⟨x₂, hx₂⟩ := messageCreate_some_redact h₂
  obtain ⟨hb₁, hr₁⟩ := redact_redacted s st x₁ hred
  obtain ⟨hb₂, hr₂⟩ := redact_redacted s st x₂ hred
  subst hx₁
  subst hx₂
  exact ⟨hb₁, hr₁, hb₁.trans hb₂.symm, hr₁.trans hr₂.symm⟩

/-- The image field the built notification ends up with: the first image
attachment's url, when attachments are present and one is image-typed. -/
def builtImage (message : Message) : Option String :=
  if message.attachments.length ≠ 0 then
    match imageAttachments message with
    | a :: _ => some a.url
    | [] => none
  else none

theorem buildNotificationData_eq (env : Env) (message : Message)
    (channel : Channel) (intent : ClickIntent) :
    buildNotificationData env message channel intent =
      { title := getNotificationTitle env message channel
        icon := getAvatarURL message.author
        body := limitMessageLength
          (formatEmotes (getNotificationBody env message channel))
          (decide (message.attachments.length ≠ 0))
        attachments := message.attachments.length
        richBody :=
          if message.mentions.length ≠ 0 ∨ message.mentionRoles ≠ 0 then
            (if (parseMentions env (formatEmotes (getNotificationBody env message channel)) channel).length ≠ 0
             then some (parseMentions env (formatEmotes (getNotificationBody env message channel)) channel)
             else none)
          else none
        image := builtImage message
        permanent := false
        onClick := some intent } := by
  unfold buildNotificationData builtImage
  by_cases hm : message.mentions.length ≠ 0 ∨ message.mentionRoles ≠ 0
  · by_cases hatt : message.attachments.length ≠ 0
    · cases himg : imageAttachments message with
      | nil => simp only [if_pos hm, if_pos hatt, himg]
      | cons a t => simp only [if_pos hm, if_pos hatt, himg]
    · simp only [if_pos hm, if_neg hatt]
  · by_cases hatt : message.attachments.length ≠ 0
    · cases himg : imageAttachments message with
      | nil => simp only [if_neg hm, if_pos hatt, himg]
      | cons a t => simp only [if_neg hm, if_pos hatt, himg]
    · simp only [if_neg hm, if_neg hatt]

theorem buildNotificationData_body (env : Env) (message : Message)
    (channel : Channel) (intent : ClickIntent) :
    (buildNotificationData env message channel intent).body =
      limitMessageLength (formatEmotes (getNotificationBody env message channel))
        (decide (message.attachments.length ≠ 0)) := by
  rw [buildNotificationData_eq]

theorem buildNotificationData_richBody (env : Env) (message : Message)
    (channel : Channel) (intent : ClickIntent)
    (h : message.mentions.length ≠ 0 ∨ message.mentionRoles ≠ 0) :
    (buildNotificationData env message channel intent).richBody =
      (if (parseMentions env (formatEmotes (getNotificationBody env message channel)) channel).length ≠ 0
       then some (parseMentions env (formatEmotes (getNotificationBody env message channel)) channel)
       else none) := by
  rw [buildNotificationData_eq]
  exact if_pos h

theorem buildNotificationData_onClick (env : Env) (message : Message)
    (channel : Channel) (intent : ClickIntent) :
    (buildNotificationData env message channel intent).onClick = some intent := by
  rw [buildNotificationData_eq]

theorem redact_onClick (s : PluginSettings) (st : ClientState)
    (x : NotificationData) : (redact s st x).onClick = x.onClick := by
  unfold redact
  split <;> rfl

/-- C6 (amended): the post-processing order is: emote normalization first,
then mention splitting computed from the emote-normalized untruncated
body, and only then truncation, which is applied to the plain-text body
field alone; for a message carrying mentions the rich sequence therefore
derives from the untruncated body, not from the truncated body field. -/
theorem c6_order_amended (env : Env) (message : Message) (channel : Channel)
    (intent : ClickIntent)
    (h : message.mentions.length ≠ 0 ∨ message.mentionRoles ≠ 0) :
    (buildNotificationData env message channel intent).body =
      limitMessageLength (formatEmotes (getNotificationBody env message channel))
        (decide (message.attachments.length ≠ 0)) ∧
    (buildNotificationData env message channel intent).richBody =
      (if (parseMentions env (formatEmotes (getNotificationBody env message channel)) channel).length ≠ 0
       then some (parseMentions env (formatEmotes (getNotificationBody env message channel)) channel)
       else none) :=
  ⟨buildNotificationData_body env message channel intent,
   buildNotificationData_richBody env message channel intent h⟩

/-- The parenthesized group-DM label as the claim states it: the channel
name if set (trimmed, a blank name counting as unset), else the first
three recipients' usernames joined by `", "`. -/
def groupDmLabel (channel : Channel) : String :=
  match channel.name with
  | some n => if n.trim = "" then joinRecipients channel else n.trim
  | none => joinRecipients channel

/-- C7: a group-DM notification title is the author's username followed by
the parenthesized label, and the label is truncated to its first 20
characters with an ellipsis appended exactly when it exceeds 20 characters
(so the rendered label never exceeds 23 characters). -/
theorem c7_group_dm_title (env : Env) (message : Message) (channel : Channel)
    (h : channel.isGroupDM = true) :
    getNotificationTitle env message channel =
      message.author.username ++ " (" ++
        (if (groupDmLabel channel).length > 20
         then ⟨(groupDmLabel channel).data.take 20⟩ ++ "..."
         else groupDmLabel channel) ++ ")" ∧
    (if (groupDmLabel channel).length > 20
     then ⟨(groupDmLabel channel).data.take 20⟩ ++ "..."
     else groupDmLabel channel).length ≤ 23 := by
  constructor
  · unfold getNotificationTitle
    rw [if_pos h]
    rfl
  · by_cases hl : (groupDmLabel channel).length > 20
    · rw [if_pos hl, length_mk_append_dots, List.length_take]
      have := string_length_data (groupDmLabel channel)
      omega
    · rw [if_neg hl]
      omega

/-- C8: with friend-activity notifications enabled and the user not
ignored, a friend relationship produces a notification titled
`<username> is now your friend`, an incoming request produces one titled
`<username> sent you a friend request`, and every other relationship type
produces none. -/
theorem c8_relationship_titles (env : Env) (s : PluginSettings)
    (st : ClientState) (user : UserRec) (t : RelationshipType)
    (hact : s.friendActivity = true)
    (hign : st.ignoredUsers.contains user.id = false) :
    ((relationshipAddHandler env s st user RelationshipType.friend).map
        (fun n => n.title) =
      some ((env.getUser user.id).username ++ " is now your friend")) ∧
    ((relationshipAddHandler env s st user RelationshipType.incomingRequest).map
        (fun n => n.title) =
      some ((env.getUser user.id).username ++ " sent you a friend request")) ∧
    (t ≠ .friend → t ≠ .incomingRequest →
      relationshipAddHandler env s st user t = none) := by
  have hign' : ¬ st.ignoredUsers.contains user.id = true := by
    rw [hign]; simp
  have hact' : ¬ s.friendActivity = false := by
    rw [hact]; simp
  refine ⟨?_, ?_, ?_⟩
  · unfold relationshipAddHandler relationshipAdd
    rw [if_neg hign', if_neg hact']
    rfl
  · unfold relationshipAddHandler relationshipAdd
    rw [if_neg hign', if_neg hact']
    rfl
  · intro h1 h2
    unfold relationshipAddHandler relationshipAdd
    rw [if_neg hign', if_neg hact']
    cases t with
    | friend => exact absurd rfl h1
    | incomingRequest => exact absurd rfl h2
    | noRelation => rfl
    | blocked => rfl
    | outgoingRequest => rfl
    | implicitRelation => rfl

/-- C10: the three route-navigating click handlers (guild messages,
new-friend events, incoming-request events) all store a `switchChannels`
intent, and `switchChannels` performs no navigation at all when the
channel store does not contain the target channel id — in particular,
clicking a new-friend notification whose user has no DM channel is a
no-op. -/
theorem c10_click_guard (env : Env) (s : PluginSettings) (st : ClientState)
    (message : Message) (user : UserRec) (guildId : Option String)
    (channelId : String) :
    (∀ n, handleGuildMessage env s st message = some n →
      n.onClick = some (ClickIntent.switchChannels
        (env.getChannel message.channel_id).guild_id
        (env.getChannel message.channel_id).id)) ∧
    (∀ n, relationshipAdd env s user RelationshipType.friend = some n →
      n.onClick = some (ClickIntent.switchChannels none (env.getUser user.id).id)) ∧
    (∀ n, relationshipAdd env s user RelationshipType.incomingRequest = some n →
      n.onClick = some (ClickIntent.switchChannels none "")) ∧
    (env.hasChannel channelId = false →
      runClick env (ClickIntent.switchChannels guildId channelId) = none) := by
  refine ⟨?_, ?_, ?_, ?_⟩
  · intro n hn
    simp only [handleGuildMessage] at hn
    split at hn
    · exact absurd hn (by simp)
    · have := Option.some.inj hn
      rw [← this, redact_onClick, buildNotificationData_onClick]
  · intro n hn
    unfold relationshipAdd at hn
    split at hn
    · exact absurd hn (by simp)
    · have := Option.some.inj hn
      rw [← this]
  · intro n hn
    unfold relationshipAdd at hn
    split at hn
    · exact absurd hn (by simp)
    · have := Option.some.inj hn
      rw [← this]
  · intro hch
    simp only [runClick]
    rw [if_neg (by rw [hch]; simp)]

/-- A concrete 31-character body. -/
def longBody31 : String := ⟨List.replicate 31 'a'⟩

/-- Concrete store snapshot and inputs used by the witnesses. -/
def userA : UserRec := ⟨"100000000000000001", "alice", "avA"⟩

def userB : UserRec := ⟨"100000000000000002", "bob", "avB"⟩

def chanDM : Channel := ⟨"c1", none, none, [], true, false⟩

def chanGuild : Channel := ⟨"c2", some "g1", some "general", [], false, false⟩

def chanGroup : Channel :=
  ⟨"c3", none, some "a very long group channel name",
    ["alice", "bob", "carol", "dave"], false, true⟩

def ugsA : UserGuildSettings :=
  { channel_overrides := fun _ => none
    message_notifications := some .allMessages }

def envA : Env :=
  { currentUser := userA
    selectedChannelId := "sel"
    getChannel := fun cid =>
      if cid = "c2" then chanGuild else if cid = "c3" then chanGroup else chanDM
    getUser := fun uid => if uid = userA.id then userA else userB
    nickname := fun _ => none
    displayName := fun u => u.username
    getRoleName := fun _ _ => none
    isFriend := fun _ => false
    isChannelMuted := fun _ => false
    isGuildOrCategoryOrChannelMuted := fun _ _ => false
    userGuildSettings := fun g => if g = some "g1" then some ugsA else none
    hasChannel := fun cid => decide (cid = "c1" ∨ cid = "c2") }

def settingsA : PluginSettings :=
  { determineServerNotifications := true
    disableInStreamerMode := true
    renderImages := true
    directMessages := true
    groupMessages := true
    friendServerNotifications := true
    friendActivity := true
    streamingTreatment := .normal
    disableMessageBody := false }

def settingsRedact : PluginSettings := { settingsA with disableMessageBody := true }

def stateA : ClientState :=
  { ignoredUsers := []
    notifyFor := ["c2"]
    isStreaming := false
    streamerModeEnabled := false }

def msgOwnDM : Message :=
  { author := userA, channel_id := "c1", content := "hi", type := .DEFAULT
    mentions := [], mentionRoles := 0, embeds := 0, stickerItems := false
    attachments := [] }

def msgGuildB : Message :=
  { author := userB, channel_id := "c2", content := "hello", type := .DEFAULT
    mentions := [], mentionRoles := 0, embeds := 0, stickerItems := false
    attachments := [] }

def msgDMa : Message :=
  { author := userB, channel_id := "c1", content := "hello", type := .DEFAULT
    mentions := [], mentionRoles := 0, embeds := 0, stickerItems := false
    attachments := [] }

def msgDMb : Message := { msgDMa with content := "world" }

def msgGroup : Message :=
  { author := userB, channel_id := "c3", content := "yo", type := .DEFAULT
    mentions := [], mentionRoles := 0, embeds := 0, stickerItems := false
    attachments := [] }

/-- A message whose mention token lies beyond the 30-character truncation
cut that applies when attachments are present. -/
def msgC6 : Message :=
  { author := userB, channel_id := "c1"
    content := (⟨List.replicate 31 'a'⟩ : String) ++ " <@111111111111111111>"
    type := .DEFAULT
    mentions := ["<@111111111111111111>"], mentionRoles := 0, embeds := 0
    stickerItems := false
    attachments := [⟨"f.txt", none, "u"⟩] }

/-- Witness for C4 at concrete inputs: a 31-character body with attachments
is truncated to length 30, and a short body is returned unchanged. -/
theorem c4_truncation_witness :
    (limitMessageLength longBody31 true).length ≤ 30 ∧
    limitMessageLength "hi" true = "hi" := by
  have h31 : longBody31.length > 30 := by decide
  have hhi : ("hi" : String).length ≤ 30 := by decide
  exact ⟨((c4_truncation longBody31).1.1 h31).1, (c4_truncation "hi").1.2 hhi⟩

/-- Witness for C2 at a concrete input: a DM message authored by the
current user produces no notification. -/
theorem c2_own_messages_witness :
    msgOwnDM.author.id = envA.currentUser.id ∧
    messageCreate envA settingsA stateA msgOwnDM = none :=
  ⟨rfl, c2_own_messages envA settingsA stateA msgOwnDM rfl⟩

/-- Witness for C1 at a concrete input: a guild message in an
always-notify channel is produced, and the eligibility disjunction holds. -/
theorem c1_guild_eligibility_witness :
    (handleGuildMessage envA settingsA stateA msgGuildB).isSome = true ∧
    (stateA.notifyFor.contains msgGuildB.channel_id = true ∨
      (envA.isFriend msgGuildB.author.id = true ∧
        settingsA.friendServerNotifications = true) ∨
      specEffectiveLevel envA (envA.getChannel msgGuildB.channel_id) = .allMessages ∨
      includesStr msgGuildB.content ("<@" ++ envA.currentUser.id ++ ">") = true) :=
  ⟨by decide, c1_guild_eligibility envA settingsA stateA msgGuildB (by decide)⟩

/-- The notification both redacted DM messages below evaluate to. -/
def notifRedacted : NotificationData :=
  { title := "bob"
    icon := "https://cdn.discordapp.com/avatars/100000000000000002/avB.png?size=128"
    body := "Message content has been redacted."
    attachments := 0
    richBody := none
    image := none
    permanent := false
    onClick := some (.selectPrivateChannel "c1") }

/-- Witness for C3 at concrete inputs: two DM messages differing only in
content, under the redact-all flag, produce notifications with the fixed
body and no rich body. -/
theorem c3_redaction_noninterference_witness :
    notifRedacted.body = "Message content has been redacted." ∧
    notifRedacted.richBody = none ∧
    notifRedacted.body = notifRedacted.body ∧
    notifRedacted.richBody = notifRedacted.richBody :=
  c3_redaction_noninterference envA settingsRedact stateA msgDMa msgDMb
    notifRedacted notifRedacted (Or.inr rfl) (by decide) (by decide) (by decide)

/-- C6 counterexample: for a concrete message whose mention token lies
beyond the truncation cut, the rich sequence stored on the notification is
not the mention split of the truncated body field — it was computed from
the untruncated body — refuting the claimed order (truncation before
mention splitting). -/
theorem c6_order_counterexample :
    (buildNotificationData envA msgC6 chanDM (ClickIntent.selectPrivateChannel "c1")).richBody ≠
      some (parseMentions envA
        (buildNotificationData envA msgC6 chanDM (ClickIntent.selectPrivateChannel "c1")).body
        chanDM) := by
  decide

/-- Witness for the amended C6 at a concrete input. -/
theorem c6_order_amended_witness :
    (msgC6.mentions.length ≠ 0 ∨ msgC6.mentionRoles ≠ 0) ∧
    ((buildNotificationData envA msgC6 chanDM (ClickIntent.selectPrivateChannel "c1")).body =
        limitMessageLength (formatEmotes (getNotificationBody envA msgC6 chanDM))
          (decide (msgC6.attachments.length ≠ 0)) ∧
      (buildNotificationData envA msgC6 chanDM (ClickIntent.selectPrivateChannel "c1")).richBody =
        (if (parseMentions envA (formatEmotes (getNotificationBody envA msgC6 chanDM)) chanDM).length ≠ 0
         then some (parseMentions envA (formatEmotes (getNotificationBody envA msgC6 chanDM)) chanDM)
         else none)) :=
  ⟨Or.inl (by decide),
   c6_order_amended envA msgC6 chanDM (ClickIntent.selectPrivateChannel "c1")
     (Or.inl (by decide))⟩

/-- Witness for C7 at a concrete input: a group DM with a 30-character
name gets the author's username and the label truncated to 20 characters
plus an ellipsis. -/
theorem c7_group_dm_title_witness :
    chanGroup.isGroupDM = true ∧
    (getNotificationTitle envA msgGroup chanGroup =
        msgGroup.author.username ++ " (" ++
          (if (groupDmLabel chanGroup).length > 20
           then ⟨(groupDmLabel chanGroup).data.take 20⟩ ++ "..."
           else groupDmLabel chanGroup) ++ ")" ∧
      (if (groupDmLabel chanGroup).length > 20
       then ⟨(groupDmLabel chanGroup).data.take 20⟩ ++ "..."
       else groupDmLabel chanGroup).length ≤ 23) :=
  ⟨rfl, c7_group_dm_title envA msgGroup chanGroup rfl⟩

/-- Witness for C8 at concrete inputs: a friend relationship yields the
"is now your friend" title and a blocked relationship yields nothing. -/
theorem c8_relationship_titles_witness :
    ((relationshipAddHandler envA settingsA stateA userB RelationshipType.friend).map
        (fun n => n.title) =
      some ((envA.getUser userB.id).username ++ " is now your friend")) ∧
    relationshipAddHandler envA settingsA stateA userB RelationshipType.blocked = none :=
  ⟨(c8_relationship_titles envA settingsA stateA userB .blocked rfl rfl).1,
   (c8_relationship_titles envA settingsA stateA userB .blocked rfl rfl).2.2
     (by decide) (by decide)⟩

/-- The notification a new-friend event for `userB` evaluates to. -/
def nFriendB : NotificationData :=
  { title := "bob is now your friend"
    icon := getAvatarURL userB
    body := "You can now message them directly."
    attachments := 0
    richBody := none
    image := none
    permanent := false
    onClick := some (.switchChannels none "100000000000000002") }

/-- Witness for C10 at concrete inputs: the channel store has no channel
with the friend's user id, so clicking the new-friend notification
navigates nowhere. -/
theorem c10_click_guard_witness :
    runClick envA (ClickIntent.switchChannels none "100000000000000002") = none ∧
    nFriendB.onClick =
      some (ClickIntent.switchChannels none (envA.getUser userB.id).id) :=
  ⟨(c10_click_guard envA settingsA stateA msgGuildB userB none
      "100000000000000002").2.2.2 (by decide),
   (c10_click_guard envA settingsA stateA msgGuildB userB none
      "100000000000000002").2.1 nFriendB (by decide)⟩

end Toast
